import Mathlib

/-!
Verification of the header stream of the papyrus block/state storage engine,
a shallow embedding of src/crates/starknet_node/src/storage/header.rs.
The underlying ordered key-value substrate (db module) and the starknet_api
types are external to the provided sources; their small fragments used by
header.rs are modelled from the specification (sections 3, 4.1 and 4.4).
-/

namespace Papyrus

/-- Block numbers are non-negative 64-bit integers; modelled as Nat
(no arithmetic in header.rs can overflow: only `next`, i.e. +1, is used). -/
abbrev BlockNumber := Nat

/-- Block hashes are 252-bit field elements; modelled as Nat. -/
abbrev BlockHash := Nat

/-- Modelled from the spec: section 3 lists the marker stream kinds
(the storage module declaring MarkerKind is not under src/);
header.rs only ever touches MarkerKind.Header. -/
inductive MarkerKind where
  | Header
  | Body
  | State
  | CompiledClass
  | BaseLayer
deriving DecidableEq

/-- Modelled from the spec: section 3, BlockHeader fields
(starknet_api is an external crate); only block_hash is read by header.rs. -/
structure BlockHeader where
  block_hash : BlockHash
  parent_hash : BlockHash
  number : BlockNumber
  sequencer : Nat
  timestamp : Nat
  state_root : Nat
deriving DecidableEq

/-- Modelled from the spec: section 4.1, the substrate failure mode KeyExist
raised by strict insert (the only DbError path reachable from header.rs). -/
inductive DbError where
  | keyExist
deriving DecidableEq

/-- The storage error type as used by header.rs: MarkerMismatch and
BlockHashAlreadyExists are produced there; innerDbError wraps a substrate
error propagated verbatim (spec section 7). -/
inductive StorageError where
  | MarkerMismatch (expected : BlockNumber) (found : BlockNumber)
  | BlockHashAlreadyExists (block_hash : BlockHash) (block_number : BlockNumber)
  | innerDbError (e : DbError)
deriving DecidableEq

/-- Modelled from the spec: section 4.1, table get — association-list lookup,
first binding wins. -/
def tableGet {κ ν : Type} [DecidableEq κ] : List (κ × ν) → κ → Option ν
  | [], _ => none
  | (k, v) :: t, k' => if k = k' then some v else tableGet t k'

/-- Modelled from the spec: section 4.1, strict insert —
fails with KeyExist if the key is present, otherwise adds the binding. -/
def tableInsert {κ ν : Type} [DecidableEq κ] (t : List (κ × ν)) (k : κ) (v : ν) :
    Except DbError (List (κ × ν)) :=
  if (tableGet t k).isSome then Except.error DbError.keyExist
  else Except.ok ((k, v) :: t)

/-- Removal of all bindings for a key (helper for upsert). -/
def tableErase {κ ν : Type} [DecidableEq κ] : List (κ × ν) → κ → List (κ × ν)
  | [], _ => []
  | (k, v) :: t, k' => if k = k' then tableErase t k' else (k, v) :: tableErase t k'

/-- Modelled from the spec: section 4.1, upsert — overwrites any existing
binding for the key. -/
def tableUpsert {κ ν : Type} [DecidableEq κ] (t : List (κ × ν)) (k : κ) (v : ν) :
    List (κ × ν) :=
  (k, v) :: tableErase t k

/-- The state visible to a storage transaction: the three tables header.rs
opens (markers, headers, block_hash_to_number). Table opening itself is
infallible in the model (spec section 4.3: all tables are opened at
environment creation). -/
structure StorageTxn where
  markers : List (MarkerKind × BlockNumber)
  headers : List (BlockNumber × BlockHeader)
  block_hash_to_number : List (BlockHash × BlockNumber)
deriving DecidableEq

/-- The empty store: no markers, headers or hash index entries. -/
def emptyStorageTxn : StorageTxn :=
  { markers := [], headers := [], block_hash_to_number := [] }

/-- markers_table.get(&txn, &MarkerKind::Header)?.unwrap_or_default()
(header.rs lines 35 and 95). -/
def header_marker (s : StorageTxn) : BlockNumber :=
  (tableGet s.markers MarkerKind.Header).getD 0

/-- HeaderStorageReader::get_header_marker (header.rs lines 33-36). -/
def get_header_marker (s : StorageTxn) : Except StorageError BlockNumber :=
  Except.ok (header_marker s)

/-- HeaderStorageReader::get_block_header (header.rs lines 37-41). -/
def get_block_header (s : StorageTxn) (block_number : BlockNumber) :
    Except StorageError (Option BlockHeader) :=
  Except.ok (tableGet s.headers block_number)

/-- HeaderStorageReader::get_block_number_by_hash (header.rs lines 42-49). -/
def get_block_number_by_hash (s : StorageTxn) (block_hash : BlockHash) :
    Except StorageError (Option BlockNumber) :=
  Except.ok (tableGet s.block_hash_to_number block_hash)

/-- update_marker (header.rs lines 89-103): check the marker equals the
block number being appended, else MarkerMismatch; then upsert the marker to
block_number.next(). Returns the outcome together with the transaction
state after the call (errors happen before any write). -/
def update_marker (s : StorageTxn) (block_number : BlockNumber) :
    Except StorageError Unit × StorageTxn :=
  if header_marker s ≠ block_number then
    (Except.error (StorageError.MarkerMismatch (header_marker s) block_number), s)
  else
    (Except.ok (),
     { s with markers := tableUpsert s.markers MarkerKind.Header (block_number + 1) })

/-- update_hash_mapping (header.rs lines 72-87): strict insert of
block_hash -> block_number; KeyExist is re-mapped to BlockHashAlreadyExists
(the only substrate error insert produces in the model, so the
pass-through arm of the source match is not represented). -/
def update_hash_mapping (s : StorageTxn) (block_header : BlockHeader)
    (block_number : BlockNumber) : Except StorageError Unit × StorageTxn :=
  match tableInsert s.block_hash_to_number block_header.block_hash block_number with
  | Except.error DbError.keyExist =>
      (Except.error
        (StorageError.BlockHashAlreadyExists block_header.block_hash block_number), s)
  | Except.ok t => (Except.ok (), { s with block_hash_to_number := t })

/-- The body of append_header (header.rs lines 52-69) as a state-passing
computation: update_marker, then headers_table.insert (whose DbError is
propagated wrapped, via the question-mark operator), then
update_hash_mapping. The state component records the transaction at the
point of return, also on the error paths. -/
def append_headerM (block_number : BlockNumber) (block_header : BlockHeader)
    (s : StorageTxn) : Except StorageError Unit × StorageTxn :=
  match update_marker s block_number with
  | (Except.error e, s1) => (Except.error e, s1)
  | (Except.ok _, s1) =>
    match tableInsert s1.headers block_number block_header with
    | Except.error e => (Except.error (StorageError.innerDbError e), s1)
    | Except.ok t =>
      let s2 : StorageTxn := { s1 with headers := t }
      match update_hash_mapping s2 block_header block_number with
      | (Except.error e, s3) => (Except.error e, s3)
      | (Except.ok _, s3) => (Except.ok (), s3)

/-- HeaderStorageWriter::append_header (header.rs lines 51-69): consumes the
transaction and returns it only on success. -/
def append_header (s : StorageTxn) (block_number : BlockNumber)
    (block_header : BlockHeader) : Except StorageError StorageTxn :=
  match append_headerM block_number block_header s with
  | (Except.ok _, s') => Except.ok s'
  | (Except.error e, _) => Except.error e

/-- The states a write scope can be in: obtained from the empty store by a
sequence of successful append_header calls. -/
inductive Reachable : StorageTxn → Prop where
  | empty : Reachable emptyStorageTxn
  | append {s s' : StorageTxn} {n : BlockNumber} {h : BlockHeader} :
      Reachable s → append_header s n h = Except.ok s' → Reachable s'

/-- Denseness: the keys of the headers table are exactly [0, header_marker). -/
def Dense (s : StorageTxn) : Prop :=
  ∀ n : BlockNumber, (tableGet s.headers n).isSome ↔ n < header_marker s

/-- Forward index consistency: every stored header is indexed by its hash. -/
def HashIndexFwd (s : StorageTxn) : Prop :=
  ∀ (n : BlockNumber) (h : BlockHeader), tableGet s.headers n = some h →
    tableGet s.block_hash_to_number h.block_hash = some n

/-- Backward index consistency: every hash index entry points below the
marker, at a header carrying that hash. -/
def HashIndexBwd (s : StorageTxn) : Prop :=
  ∀ (x : BlockHash) (n : BlockNumber), tableGet s.block_hash_to_number x = some n →
    n < header_marker s ∧
      ∃ h : BlockHeader, tableGet s.headers n = some h ∧ h.block_hash = x

/-- The combined store invariant maintained by append_header. -/
def StoreInv (s : StorageTxn) : Prop :=
  Dense s ∧ HashIndexFwd s ∧ HashIndexBwd s

/-- The store produced by a successful append_header s n h. -/
def appended (s : StorageTxn) (n : BlockNumber) (h : BlockHeader) : StorageTxn :=
  { markers := tableUpsert s.markers MarkerKind.Header (n + 1),
    headers := (n, h) :: s.headers,
    block_hash_to_number := (h.block_hash, n) :: s.block_hash_to_number }

theorem tableGet_cons {κ ν : Type} [DecidableEq κ] (k k' : κ) (v : ν)
    (t : List (κ × ν)) :
    tableGet ((k, v) :: t) k' = if k = k' then some v else tableGet t k' := rfl

theorem tableGet_cons_self {κ ν : Type} [DecidableEq κ] (k : κ) (v : ν)
    (t : List (κ × ν)) : tableGet ((k, v) :: t) k = some v := by
  simp [tableGet]

theorem tableGet_cons_ne {κ ν : Type} [DecidableEq κ] (k k' : κ) (v : ν)
    (t : List (κ × ν)) (hne : k ≠ k') :
    tableGet ((k, v) :: t) k' = tableGet t k' := by
  simp [tableGet, hne]

theorem tableGet_erase_ne {κ ν : Type} [DecidableEq κ] (t : List (κ × ν))
    (k k' : κ) (hne : k' ≠ k) :
    tableGet (tableErase t k) k' = tableGet t k' := by
  induction t with
  | nil => rfl
  | cons p t ih =>
    obtain ⟨a, b⟩ := p
    by_cases hak : a = k
    · have hak' : a ≠ k' := fun hh => hne ((hak ▸ hh : k = k') ▸ rfl)
      rw [tableErase, if_pos hak, ih, tableGet_cons_ne a k' b t hak']
    · rw [tableErase, if_neg hak]
      by_cases hak' : a = k'
      · subst hak'
        rw [tableGet_cons_self, tableGet_cons_self]
      · rw [tableGet_cons_ne a k' b _ hak', tableGet_cons_ne a k' b t hak', ih]

theorem tableGet_upsert_self {κ ν : Type} [DecidableEq κ] (t : List (κ × ν))
    (k : κ) (v : ν) : tableGet (tableUpsert t k v) k = some v := by
  simp [tableUpsert, tableGet]

theorem tableGet_upsert_ne {κ ν : Type} [DecidableEq κ] (t : List (κ × ν))
    (k k' : κ) (v : ν) (hne : k' ≠ k) :
    tableGet (tableUpsert t k v) k' = tableGet t k' := by
  rw [tableUpsert, tableGet_cons_ne k k' v _ (fun hh => hne (hh ▸ rfl)),
    tableGet_erase_ne t k k' hne]

theorem update_marker_ok (s : StorageTxn) (n : BlockNumber)
    (hm : header_marker s = n) :
    update_marker s n =
      (Except.ok (),
       { s with markers := tableUpsert s.markers MarkerKind.Header (n + 1) }) := by
  rw [update_marker, if_neg (by simp [hm])]

theorem header_marker_update_marker (s : StorageTxn) (n : BlockNumber)
    (h : header_marker s = n) :
    header_marker (update_marker s n).2 = n + 1 := by
  rw [update_marker_ok s n h]
  simp [header_marker, tableGet_upsert_self]

theorem append_headerM_ok (s : StorageTxn) (n : BlockNumber) (h : BlockHeader)
    (hm : header_marker s = n) (hh : tableGet s.headers n = none)
    (hx : tableGet s.block_hash_to_number h.block_hash = none) :
    append_headerM n h s = (Except.ok (), appended s n h) := by
  rw [append_headerM, update_marker_ok s n hm]
  simp only [tableInsert, update_hash_mapping, hh, hx, Option.isSome_none,
    Bool.false_eq_true, if_false]
  rfl

/-- The marker mismatch path: if the current marker differs from the block
number, append_header fails with MarkerMismatch before touching any table. -/
theorem append_headerM_mismatch (s : StorageTxn) (n : BlockNumber)
    (h : BlockHeader) (hm : header_marker s ≠ n) :
    append_headerM n h s =
      (Except.error (StorageError.MarkerMismatch (header_marker s) n), s) := by
  rw [append_headerM, update_marker, if_pos hm]

theorem append_headerM_headerExists (s : StorageTxn) (n : BlockNumber)
    (h : BlockHeader) (hm : header_marker s = n)
    (hh : (tableGet s.headers n).isSome) :
    append_headerM n h s =
      (Except.error (StorageError.innerDbError DbError.keyExist),
       { s with markers := tableUpsert s.markers MarkerKind.Header (n + 1) }) := by
  rw [append_headerM, update_marker_ok s n hm]
  simp only [tableInsert, hh, if_true]

theorem append_headerM_hashExists (s : StorageTxn) (n : BlockNumber)
    (h : BlockHeader) (hm : header_marker s = n)
    (hh : tableGet s.headers n = none)
    (hx : (tableGet s.block_hash_to_number h.block_hash).isSome) :
    append_headerM n h s =
      (Except.error (StorageError.BlockHashAlreadyExists h.block_hash n),
       { s with markers := tableUpsert s.markers MarkerKind.Header (n + 1),
                headers := (n, h) :: s.headers }) := by
  rw [append_headerM, update_marker_ok s n hm]
  simp only [tableInsert, update_hash_mapping, hh, hx, Option.isSome_none,
    Bool.false_eq_true, if_false, if_true]

/-- A successful append_header happens exactly when the marker equals the
block number and neither the headers key nor the hash key pre-exists; the
resulting store is `appended`. -/
theorem append_header_ok_iff (s s' : StorageTxn) (n : BlockNumber)
    (h : BlockHeader) :
    append_header s n h = Except.ok s' ↔
      header_marker s = n ∧ tableGet s.headers n = none ∧
        tableGet s.block_hash_to_number h.block_hash = none ∧
        s' = appended s n h := by
  by_cases hm : header_marker s = n
  · by_cases hh : (tableGet s.headers n).isSome
    · rw [append_header, append_headerM_headerExists s n h hm hh]
      simp [Option.isSome_iff_ne_none.mp hh]
    · rw [Option.not_isSome_iff_eq_none] at hh
      by_cases hx : (tableGet s.block_hash_to_number h.block_hash).isSome
      · rw [append_header, append_headerM_hashExists s n h hm hh hx]
        simp [Option.isSome_iff_ne_none.mp hx]
      · rw [Option.not_isSome_iff_eq_none] at hx
        rw [append_header, append_headerM_ok s n h hm hh hx]
        simp [hm, hh, hx, eq_comm]
  · rw [append_header, append_headerM_mismatch s n h hm]
    simp [hm]

theorem header_marker_appended (s : StorageTxn) (n : BlockNumber)
    (h : BlockHeader) : header_marker (appended s n h) = n + 1 := by
  simp [appended, header_marker, tableGet_upsert_self]

theorem storeInv_empty : StoreInv emptyStorageTxn := by
  refine ⟨?_, ?_, ?_⟩
  · intro n
    simp [emptyStorageTxn, tableGet, header_marker]
  · intro n h hget
    simp [emptyStorageTxn, tableGet] at hget
  · intro x n hget
    simp [emptyStorageTxn, tableGet] at hget

theorem appended_headers_get (s : StorageTxn) (n : BlockNumber)
    (h : BlockHeader) (m : BlockNumber) :
    tableGet (appended s n h).headers m =
      if n = m then some h else tableGet s.headers m := rfl

theorem appended_hash_get (s : StorageTxn) (n : BlockNumber) (h : BlockHeader)
    (x : BlockHash) :
    tableGet (appended s n h).block_hash_to_number x =
      if h.block_hash = x then some n else tableGet s.block_hash_to_number x := rfl

theorem storeInv_appended (s : StorageTxn) (n : BlockNumber) (h : BlockHeader)
    (hinv : StoreInv s) (hm : header_marker s = n)
    (_hh : tableGet s.headers n = none)
    (hx : tableGet s.block_hash_to_number h.block_hash = none) :
    StoreInv (appended s n h) := by
  obtain ⟨hdense, hfwd, hbwd⟩ := hinv
  have hmrk : header_marker (appended s n h) = n + 1 := header_marker_appended s n h
  refine ⟨?_, ?_, ?_⟩
  · intro m
    rw [hmrk, appended_headers_get]
    by_cases hmn : n = m
    · subst hmn
      simp [Nat.lt_succ_self]
    · rw [if_neg hmn, hdense m, hm]
      constructor
      · intro hlt
        exact Nat.lt_succ_of_lt hlt
      · intro hlt
        exact Nat.lt_of_le_of_ne (Nat.lt_succ_iff.mp hlt) (fun he => hmn he.symm)
  · intro m g hget
    rw [appended_headers_get] at hget
    rw [appended_hash_get]
    by_cases hmn : n = m
    · rw [if_pos hmn, Option.some.injEq] at hget
      subst hget
      rw [if_pos rfl, hmn]
    · rw [if_neg hmn] at hget
      have hold : tableGet s.block_hash_to_number g.block_hash = some m :=
        hfwd m g hget
      have hneq : h.block_hash ≠ g.block_hash := by
        intro he
        rw [← he, hx] at hold
        exact Option.noConfusion hold
      rw [if_neg hneq]
      exact hold
  · intro x m hget
    rw [appended_hash_get] at hget
    rw [hmrk]
    by_cases hxb : h.block_hash = x
    · rw [if_pos hxb, Option.some.injEq] at hget
      subst hget
      exact ⟨Nat.lt_succ_self n, h, by rw [appended_headers_get, if_pos rfl], hxb⟩
    · rw [if_neg hxb] at hget
      obtain ⟨hlt, g, hg, hgx⟩ := hbwd x m hget
      rw [hm] at hlt
      refine ⟨Nat.lt_succ_of_lt hlt, g, ?_, hgx⟩
      rw [appended_headers_get, if_neg (Nat.ne_of_gt hlt)]
      exact hg

/-- Every reachable store satisfies the combined invariant. -/
theorem reachable_storeInv (s : StorageTxn) (hr : Reachable s) : StoreInv s := by
  induction hr with
  | empty => exact storeInv_empty
  | append hr hok ih =>
    rename_i s0 s1 n h
    rw [append_header_ok_iff] at hok
    obtain ⟨hm, hh, hx, heq⟩ := hok
    subst heq
    exact storeInv_appended s0 n h ih hm hh hx

/-- In a dense store, no header is stored at the marker position. -/
theorem dense_headers_none_at_marker (s : StorageTxn) (hd : Dense s) :
    tableGet s.headers (header_marker s) = none := by
  by_cases hcase : (tableGet s.headers (header_marker s)).isSome
  · exact absurd ((hd _).mp hcase) (Nat.lt_irrefl _)
  · exact Option.not_isSome_iff_eq_none.mp hcase

/-- A sample header (hash value from the spec scenario 0x642b...5483,
abbreviated to a concrete field element). -/
def sampleHeader0 : BlockHeader :=
  { block_hash := 0x642b5483, parent_hash := 0, number := 0,
    sequencer := 1, timestamp := 10, state_root := 7 }

/-- A sample header for block 1 reusing the hash of sampleHeader0. -/
def sampleHeaderReuse : BlockHeader :=
  { block_hash := 0x642b5483, parent_hash := 0x642b5483, number := 1,
    sequencer := 1, timestamp := 11, state_root := 8 }

/-- The store after appending sampleHeader0 at block 0. -/
def sampleStore1 : StorageTxn := appended emptyStorageTxn 0 sampleHeader0

theorem sampleStore1_reachable : Reachable sampleStore1 :=
  @Reachable.append emptyStorageTxn sampleStore1 0 sampleHeader0 Reachable.empty rfl


/-- Modelled from the spec: sections 4.4 and 7 — the write scope / commit
discipline of the db transaction layer (db.rs is not under src/). An
environment holds the durable (committed) state; begin_write opens a scope
at it and commit installs a scope's state. -/
structure Env where
  committed : StorageTxn
deriving DecidableEq

/-- Modelled from the spec: section 4.4, begin_write opens a scope seeded
with the committed state. -/
def begin_write (e : Env) : StorageTxn := e.committed

/-- Modelled from the spec: section 4.4, commit durably installs the
scope's state. -/
def commit (scope : StorageTxn) : Env := { committed := scope }

/-- Modelled from the spec: sections 4.4 and 7 — a caller driving one
append to durability. append_header consumes the scope and returns it only
on success (header.rs line 25); on error no scope comes back, so the only
continuation is abort (drop), leaving the committed state unchanged. -/
def run_append_header (e : Env) (n : BlockNumber) (h : BlockHeader) : Env :=
  match append_header (begin_write e) n h with
  | Except.ok scope => commit scope
  | Except.error _ => e

/-- C1: in any reachable write scope whose header marker equals N, if no
entry with key H.block_hash exists in the hash index, append_header(N, H)
succeeds, and afterwards the headers table maps N to H, the hash index maps
H.block_hash to N (so get_block_number_by_hash returns N), and the header
marker equals N + 1. -/
theorem C1_append_header_success (s : StorageTxn) (n : BlockNumber)
    (h : BlockHeader) (hr : Reachable s) (hm : header_marker s = n)
    (hx : tableGet s.block_hash_to_number h.block_hash = none) :
    ∃ s', append_header s n h = Except.ok s' ∧
      get_block_header s' n = Except.ok (some h) ∧
      get_block_number_by_hash s' h.block_hash = Except.ok (some n) ∧
      get_header_marker s' = Except.ok (n + 1) := by
  have hh : tableGet s.headers n = none := by
    have hnone := dense_headers_none_at_marker s (reachable_storeInv s hr).1
    rw [hm] at hnone
    exact hnone
  refine ⟨appended s n h, ?_, ?_, ?_, ?_⟩
  · rw [append_header_ok_iff]
    exact ⟨hm, hh, hx, rfl⟩
  · rw [get_block_header, appended_headers_get, if_pos rfl]
  · rw [get_block_number_by_hash, appended_hash_get, if_pos rfl]
  · rw [get_header_marker, header_marker_appended]

theorem C1_witness :
    Reachable emptyStorageTxn ∧ header_marker emptyStorageTxn = 0 ∧
      tableGet emptyStorageTxn.block_hash_to_number sampleHeader0.block_hash = none ∧
      ∃ s', append_header emptyStorageTxn 0 sampleHeader0 = Except.ok s' ∧
        get_block_header s' 0 = Except.ok (some sampleHeader0) ∧
        get_block_number_by_hash s' sampleHeader0.block_hash = Except.ok (some 0) ∧
        get_header_marker s' = Except.ok 1 :=
  ⟨Reachable.empty, rfl, rfl,
    C1_append_header_success emptyStorageTxn 0 sampleHeader0 Reachable.empty rfl rfl⟩

/-- C2: whenever the current header marker B differs from N, append_header
fails with MarkerMismatch whose expected field is B and whose found field
is N (the code checks the marker before anything else). -/
theorem C2_marker_mismatch (s : StorageTxn) (n : BlockNumber) (h : BlockHeader)
    (hm : header_marker s ≠ n) :
    append_header s n h =
      Except.error (StorageError.MarkerMismatch (header_marker s) n) := by
  rw [append_header, append_headerM_mismatch s n h hm]

theorem C2_witness :
    header_marker emptyStorageTxn ≠ 1 ∧
      append_header emptyStorageTxn 1 sampleHeader0 =
        Except.error (StorageError.MarkerMismatch 0 1) :=
  ⟨by decide, C2_marker_mismatch emptyStorageTxn 1 sampleHeader0 (by decide)⟩

/-- C3: after any valid sequence of successful appends (any reachable
store), the keys of the headers table are exactly the interval
[0, header_marker): a block number is present iff it is below the marker. -/
theorem C3_headers_dense (s : StorageTxn) (hr : Reachable s) :
    ∀ n : BlockNumber, (tableGet s.headers n).isSome ↔ n < header_marker s :=
  (reachable_storeInv s hr).1

theorem C3_witness :
    Reachable sampleStore1 ∧
      ((tableGet sampleStore1.headers 0).isSome ↔ 0 < header_marker sampleStore1) ∧
      ((tableGet sampleStore1.headers 1).isSome ↔ 1 < header_marker sampleStore1) :=
  ⟨sampleStore1_reachable,
    C3_headers_dense sampleStore1 sampleStore1_reachable 0,
    C3_headers_dense sampleStore1 sampleStore1_reachable 1⟩

/-- C4 counterexample: in the reachable store obtained by appending
sampleHeader0 at block 0, the hash of sampleHeader0 is present in the hash
index, yet append_header at N = 0 with that same header fails with
MarkerMismatch{1, 0}, not with BlockHashAlreadyExists, because the marker
check runs first. -/
theorem C4_counterexample :
    Reachable sampleStore1 ∧
      (tableGet sampleStore1.block_hash_to_number sampleHeader0.block_hash).isSome = true ∧
      append_header sampleStore1 0 sampleHeader0 =
        Except.error (StorageError.MarkerMismatch 1 0) ∧
      StorageError.MarkerMismatch 1 0 ≠
        StorageError.BlockHashAlreadyExists sampleHeader0.block_hash 0 :=
  ⟨sampleStore1_reachable, rfl, rfl, by decide⟩

/-- C4 (amended): in any reachable write scope whose header marker equals N,
if an entry with key H.block_hash already exists in the hash index, then
append_header(N, H) fails with BlockHashAlreadyExists carrying that hash and
N; in particular appending at N = 1 a header reusing the hash of the header
appended at N = 0 yields BlockHashAlreadyExists. -/
theorem C4_hash_already_exists (s : StorageTxn) (n : BlockNumber)
    (h : BlockHeader) (hr : Reachable s) (hm : header_marker s = n)
    (hx : (tableGet s.block_hash_to_number h.block_hash).isSome) :
    append_header s n h =
      Except.error (StorageError.BlockHashAlreadyExists h.block_hash n) := by
  have hh : tableGet s.headers n = none := by
    have hnone := dense_headers_none_at_marker s (reachable_storeInv s hr).1
    rw [hm] at hnone
    exact hnone
  rw [append_header, append_headerM_hashExists s n h hm hh hx]

theorem C4_witness :
    Reachable sampleStore1 ∧ header_marker sampleStore1 = 1 ∧
      (tableGet sampleStore1.block_hash_to_number sampleHeaderReuse.block_hash).isSome = true ∧
      append_header sampleStore1 1 sampleHeaderReuse =
        Except.error
          (StorageError.BlockHashAlreadyExists sampleHeaderReuse.block_hash 1) :=
  ⟨sampleStore1_reachable, rfl, rfl,
    C4_hash_already_exists sampleStore1 1 sampleHeaderReuse
      sampleStore1_reachable rfl rfl⟩

/-- C5: in any reachable store the headers table and the hash index are
mutually inverse: every stored header N -> H has its hash indexed back to N,
and every indexed hash h -> N satisfies N < header_marker and points at a
stored header whose block_hash is h. -/
theorem C5_hash_index_bijective (s : StorageTxn) (hr : Reachable s) :
    (∀ (n : BlockNumber) (h : BlockHeader), tableGet s.headers n = some h →
        tableGet s.block_hash_to_number h.block_hash = some n) ∧
    (∀ (x : BlockHash) (n : BlockNumber),
        tableGet s.block_hash_to_number x = some n →
          n < header_marker s ∧
            ∃ h : BlockHeader, tableGet s.headers n = some h ∧ h.block_hash = x) :=
  ⟨(reachable_storeInv s hr).2.1, (reachable_storeInv s hr).2.2⟩

theorem C5_witness :
    Reachable sampleStore1 ∧
      ((∀ (n : BlockNumber) (h : BlockHeader), tableGet sampleStore1.headers n = some h →
          tableGet sampleStore1.block_hash_to_number h.block_hash = some n) ∧
       (∀ (x : BlockHash) (n : BlockNumber),
          tableGet sampleStore1.block_hash_to_number x = some n →
            n < header_marker sampleStore1 ∧
              ∃ h : BlockHeader, tableGet sampleStore1.headers n = some h ∧
                h.block_hash = x)) :=
  ⟨sampleStore1_reachable, C5_hash_index_bijective sampleStore1 sampleStore1_reachable⟩

/-- C6: every successful append_header starts from a marker equal to the
appended block number and leaves the marker at exactly its old value plus 1;
in particular the marker never decreases across a successful append (the
read operations take the transaction immutably and cannot change it). -/
theorem C6_marker_increments (s : StorageTxn) (n : BlockNumber)
    (h : BlockHeader) (s' : StorageTxn)
    (hok : append_header s n h = Except.ok s') :
    header_marker s = n ∧ header_marker s' = header_marker s + 1 ∧
      header_marker s ≤ header_marker s' := by
  rw [append_header_ok_iff] at hok
  obtain ⟨hm, hh, hx, heq⟩ := hok
  subst heq
  refine ⟨hm, ?_, ?_⟩
  · rw [header_marker_appended, hm]
  · rw [header_marker_appended, hm]
    exact Nat.le_succ n

theorem C6_witness :
    append_header emptyStorageTxn 0 sampleHeader0 = Except.ok sampleStore1 ∧
      header_marker emptyStorageTxn = 0 ∧
      header_marker sampleStore1 = header_marker emptyStorageTxn + 1 ∧
      header_marker emptyStorageTxn ≤ header_marker sampleStore1 :=
  ⟨rfl, C6_marker_increments emptyStorageTxn 0 sampleHeader0 sampleStore1 rfl⟩

/-- C7: on the empty store, before any append, get_header_marker returns 0
(the markers table is empty and the marker defaults to 0), so the first
expected block number is 0. -/
theorem C7_initial_marker_zero :
    get_header_marker emptyStorageTxn = Except.ok 0 := rfl

/-- C8: failure forces abort — append_header consumes the write scope and
returns it only on success, so when it fails the caller holds no scope to
commit and the committed (durable) state is unchanged by the failed
operation. -/
theorem C8_failure_forces_abort (e : Env) (n : BlockNumber) (h : BlockHeader)
    (err : StorageError)
    (hf : append_header (begin_write e) n h = Except.error err) :
    run_append_header e n h = e := by
  rw [run_append_header, hf]

theorem C8_witness :
    append_header (begin_write (Env.mk emptyStorageTxn)) 1 sampleHeader0 =
      Except.error (StorageError.MarkerMismatch 0 1) ∧
    run_append_header (Env.mk emptyStorageTxn) 1 sampleHeader0 =
      Env.mk emptyStorageTxn :=
  ⟨rfl, C8_failure_forces_abort (Env.mk emptyStorageTxn) 1 sampleHeader0
    (StorageError.MarkerMismatch 0 1) rfl⟩

/-- C9: when append_header fails with MarkerMismatch, the transaction state
at the point of failure equals the input state — the marker consistency
check precedes the marker upsert, the headers insert and the hash index
insert, so no table has been written by the call. -/
theorem C9_mismatch_writes_nothing (s sf : StorageTxn) (n : BlockNumber)
    (h : BlockHeader) (e f : BlockNumber)
    (hf : append_headerM n h s =
      (Except.error (StorageError.MarkerMismatch e f), sf)) :
    sf = s := by
  by_cases hm : header_marker s = n
  · by_cases hh : (tableGet s.headers n).isSome
    · rw [append_headerM_headerExists s n h hm hh] at hf
      exact absurd (congrArg Prod.fst hf) (by simp)
    · rw [Option.not_isSome_iff_eq_none] at hh
      by_cases hx : (tableGet s.block_hash_to_number h.block_hash).isSome
      · rw [append_headerM_hashExists s n h hm hh hx] at hf
        exact absurd (congrArg Prod.fst hf) (by simp)
      · rw [Option.not_isSome_iff_eq_none] at hx
        rw [append_headerM_ok s n h hm hh hx] at hf
        exact absurd (congrArg Prod.fst hf) (by simp)
  · rw [append_headerM_mismatch s n h hm] at hf
    exact (congrArg Prod.snd hf).symm

theorem C9_witness :
    append_headerM 1 sampleHeader0 emptyStorageTxn =
      (Except.error (StorageError.MarkerMismatch 0 1), emptyStorageTxn) ∧
    emptyStorageTxn = emptyStorageTxn :=
  ⟨rfl, C9_mismatch_writes_nothing emptyStorageTxn emptyStorageTxn 1
    sampleHeader0 0 1 rfl⟩

/-- C10: under the denseness invariant, when the header marker equals N the
strict insert of the header at key N inside append_header cannot fail with
key-already-exists: after the marker step the headers table has no entry at
N, so the insert returns ok. -/
theorem C10_headers_insert_cannot_fail (s : StorageTxn) (n : BlockNumber)
    (h : BlockHeader) (hd : Dense s) (hm : header_marker s = n) :
    (update_marker s n).1 = Except.ok () ∧
      tableInsert (update_marker s n).2.headers n h =
        Except.ok ((n, h) :: s.headers) := by
  have hh : tableGet s.headers n = none := by
    have hnone := dense_headers_none_at_marker s hd
    rw [hm] at hnone
    exact hnone
  rw [update_marker_ok s n hm]
  refine ⟨rfl, ?_⟩
  show tableInsert s.headers n h = Except.ok ((n, h) :: s.headers)
  rw [tableInsert, if_neg (by rw [hh]; simp)]

theorem C10_witness :
    Dense emptyStorageTxn ∧ header_marker emptyStorageTxn = 0 ∧
      (update_marker emptyStorageTxn 0).1 = Except.ok () ∧
      tableInsert (update_marker emptyStorageTxn 0).2.headers 0 sampleHeader0 =
        Except.ok [(0, sampleHeader0)] :=
  ⟨storeInv_empty.1, rfl,
    C10_headers_insert_cannot_fail emptyStorageTxn 0 sampleHeader0
      storeInv_empty.1 rfl⟩


end Papyrus
